import Mathlib

/-!
Verification of the `ModulesRepo` local registry cache
(`nf_core/modules/modules_repo.py`) against its specification.

The Python class is embedded shallowly: the git working copy is a value of
`MRState` (repository refs, resolved branch, active ref, checked-out tree),
process-wide class attributes (`local_repo_statuses`, `no_pull_global`) are a
`ProcState` threaded explicitly, and Python exceptions become an explicit
`RepoError` in `Except`.  Paths are lists of segments, files carry their
content together with a modification time (needed to model
`filecmp.cmp`'s default shallow comparison by stat signature).
-/

namespace NfTools

/-- `NF_CORE_MODULES_NAME` constant from the source. -/
def NF_CORE_MODULES_NAME : String := "nf-core"

/-- `NF_CORE_MODULES_REMOTE` constant from the source. -/
def NF_CORE_MODULES_REMOTE : String := "https://github.com/nf-core/modules.git"

/-- `NF_CORE_MODULES_DEFAULT_BRANCH` constant from the source. -/
def NF_CORE_MODULES_DEFAULT_BRANCH : String := "master"

/-- Split a character list at every occurrence of `sep` (like `str.split`). -/
def splitOnChar (sep : Char) : List Char → List (List Char)
  | [] => [[]]
  | c :: rest =>
    let r := splitOnChar sep rest
    if c = sep then [] :: r
    else (c :: r.headD []) :: r.tail

/-- Final path component of a `/`-separated string, as `pathlib.Path(...).name`. -/
def lastComponent (s : String) : List Char :=
  (splitOnChar '/' s.data).getLastD []

/-- `pathlib.Path(...).stem`: the final component with its dot-suffix removed.
The suffix starts at the last `.` whose index `i` satisfies `0 < i < len - 1`. -/
def pathStem (s : String) : String :=
  let name := lastComponent s
  match ((List.range name.length).filter (fun i => name.getD i ' ' = '.')).getLast? with
  | some i => if 0 < i ∧ i + 1 < name.length then String.mk (name.take i) else String.mk name
  | none => String.mk name

/-- `message.partition("\n")[0]`: the commit message up to the first newline. -/
def truncMessage (m : String) : String :=
  String.mk ((splitOnChar '\n' m.data).headD [])

/-- Lookup in an association list keyed by strings (Python `dict` read). -/
def lookupA {α : Type} (d : List (String × α)) (k : String) : Option α :=
  (d.find? (fun p => p.1 == k)).map Prod.snd

/-- Python `dict` write `d[k] = v`: overwrite in place if the key is present,
append otherwise (insertion order is preserved, as in a Python dict). -/
def dictInsert {α : Type} (d : List (String × α)) (k : String) (v : α) :
    List (String × α) :=
  if d.any (fun p => p.1 == k) then d.map (fun p => if p.1 == k then (k, v) else p)
  else d ++ [(k, v)]

/-- A file of the working tree: path segments, byte content, stat mtime. -/
structure FileEntry where
  path : List String
  content : String
  mtime : Nat
deriving Repr, DecidableEq

/-- A commit: sha, full message, the paths it modified (for `iter_commits`
path filtering) and the snapshot of the tree at that commit. -/
structure Commit where
  sha : String
  message : String
  touched : List (List String)
  tree : List FileEntry
deriving Repr, DecidableEq

/-- The currently checked-out ref of the working copy: a branch, or a
detached commit. -/
inductive Ref where
  | branch (name : String)
  | commit (sha : String)
deriving Repr, DecidableEq

/-- The git repository object: branch histories (newest commit first; the
model's histories stand for the post-fetch state of the clone), the target of
the `origin/HEAD` symbolic ref, and the remote tracking branch configured for
each local branch. -/
structure GitRepo where
  branches : List (String × List Commit)
  originHeadTarget : String
  trackingBranches : List (String × String)
deriving Repr, DecidableEq

/-- The state of one `ModulesRepo` instance: its repo, `self.remote_url`,
`self.branch`, `self.repo_path` (org path), and the working copy (active ref
plus checked-out tree). -/
structure MRState where
  repo : GitRepo
  remoteUrl : String
  branch : String
  repoPath : String
  activeRef : Ref
  workTree : List FileEntry
deriving Repr, DecidableEq

/-- Python exceptions raised by the source, by kind. -/
inductive RepoError where
  | gitCommandError (msg : String)
  | lookupError (msg : String)
  | userWarning (msg : String)
  | valueError
  | indexError
  | nameError
deriving Repr, DecidableEq

/-- History of the resolved branch, if the branch exists. -/
def branchHistoryOf (s : MRState) : Option (List Commit) :=
  lookupA s.repo.branches s.branch

/-- Tree at the tip of a history (newest commit first). -/
def tipTree (hist : List Commit) : List FileEntry :=
  (hist.head?.map Commit.tree).getD []

/-- `checkout_branch` (line 290): `git checkout <self.branch>`; fails with a
`GitCommandError` when the branch does not exist, otherwise the working copy
is the branch tip. -/
def checkout_branch (s : MRState) : Except RepoError MRState :=
  match branchHistoryOf s with
  | some hist => .ok { s with activeRef := .branch s.branch, workTree := tipTree hist }
  | none => .error (.gitCommandError ("checkout " ++ s.branch))

/-- Find a commit by sha among all commits of the repository. -/
def findCommit (r : GitRepo) (sha : String) : Option Commit :=
  ((r.branches.map Prod.snd).flatten).find? (fun c => c.sha == sha)

/-- `checkout` (line 296): `git checkout <commit>`; detaches at the commit,
fails with a `GitCommandError` for an unknown sha. -/
def checkout (s : MRState) (commit : String) : Except RepoError MRState :=
  match findCommit s.repo commit with
  | some c => .ok { s with activeRef := .commit commit, workTree := c.tree }
  | none => .error (.gitCommandError ("checkout " ++ commit))

/-- `self.modules_dir` relative to the local repo dir. -/
def modules_dir (s : MRState) : List String := ["modules", s.repoPath]

/-- `self.subworkflows_dir` relative to the local repo dir. -/
def subworkflows_dir (s : MRState) : List String := ["subworkflows", s.repoPath]

/-- `get_component_dir` (line 317): path of a component directory; `none`
models Python's implicit `None` return for an unknown component type. -/
def get_component_dir (s : MRState) (component_name : List String)
    (component_type : String) : Option (List String) :=
  if component_type = "modules" then some (modules_dir s ++ component_name)
  else if component_type = "subworkflows" then some (subworkflows_dir s ++ component_name)
  else none

/-- The `os.walk` scan of `get_avail_components`: every directory below `dir`
that directly contains a `main.nf` file, named by its path relative to
`dir`. -/
def availComponentNames (tree : List FileEntry) (dir : List String) :
    List (List String) :=
  (tree.filterMap (fun e =>
    if dir.isPrefixOf e.path ∧ e.path.getLast? = some "main.nf" ∧ dir.length < e.path.length
    then some ((e.path.drop dir.length).dropLast) else none)).dedup

/-- `get_avail_components` (line 452): optionally re-checkout the branch tip,
then scan the kind's root directory; an unknown kind leaves Python's
`directory` variable unbound (`NameError`). -/
def get_avail_components (s : MRState) (component_type : String) (co : Bool) :
    Except RepoError (List (List String) × MRState) :=
  let s' : Except RepoError MRState := if co then checkout_branch s else .ok s
  match s' with
  | .error e => .error e
  | .ok s1 =>
    if component_type = "modules" then
      .ok (availComponentNames s1.workTree (modules_dir s1), s1)
    else if component_type = "subworkflows" then
      .ok (availComponentNames s1.workTree (subworkflows_dir s1), s1)
    else .error .nameError

/-- `component_exists` (line 305): membership in the available components. -/
def component_exists (s : MRState) (component_name : List String)
    (component_type : String) (co : Bool) : Except RepoError (Bool × MRState) :=
  match get_avail_components s component_type co with
  | .error e => .error e
  | .ok (names, s1) => .ok (decide (component_name ∈ names), s1)

/-- `shutil.copytree`: every file below `src` is replicated below `dst`.
(The destination-already-exists failure of `copytree` is not modelled; the
claims under study only exercise runs where the copy succeeds.) -/
def copytree (tree : List FileEntry) (src dst : List String) : List FileEntry :=
  tree.filterMap (fun e =>
    if src.isPrefixOf e.path then some { e with path := dst ++ e.path.drop src.length }
    else none)

/-- `install_component` (line 332): checkout the commit (a failure is caught
and returns `False`), check the component exists there (without re-checkout),
copy its tree into `install_dir/component_name`, and only then switch back to
the branch tip.  The returned triple is (success flag, working-copy state,
files created under the install directory). -/
def install_component (s : MRState) (component_name install_dir : List String)
    (commit : String) (component_type : String) :
    Except RepoError (Bool × MRState × List FileEntry) :=
  match checkout s commit with
  | .error _ => .ok (false, s, [])
  | .ok s1 =>
    match component_exists s1 component_name component_type false with
    | .error e => .error e
    | .ok (ex, s2) =>
      if ex then
        match get_component_dir s2 component_name component_type with
        | none => .error .nameError
        | some dir =>
          let created := copytree s2.workTree dir (install_dir ++ component_name)
          match checkout_branch s2 with
          | .error e => .error e
          | .ok s3 => .ok (true, s3, created)
      else .ok (false, s2, [])

/-- `filecmp.cmp(f1, f2)` with the default `shallow=True`: equal stat
signatures (size, mtime) report `True` without reading contents; different
sizes report `False`; otherwise the contents are compared. -/
def filecmp_cmp (f1 f2 : FileEntry) : Bool :=
  if f1.content.length = f2.content.length ∧ f1.mtime = f2.mtime then true
  else if f1.content.length ≠ f2.content.length then false
  else f1.content = f2.content

/-- Find a file at an exact path. -/
def findFile (tree : List FileEntry) (p : List String) : Option FileEntry :=
  tree.find? (fun e => e.path == p)

/-- `module_files_identical` (line 364): checkout the commit (or the branch
tip when `commit is None`), compare `main.nf` and `meta.yml` against
`base_path` with `filecmp.cmp`, keeping the dict's default `True` when either
file is missing (`FileNotFoundError` is caught), then checkout the branch
tip again before returning. -/
def module_files_identical (s : MRState) (module_name : List String)
    (base_path : List FileEntry) (commit : Option String) :
    Except RepoError (List (String × Bool) × MRState) :=
  let co : Except RepoError MRState :=
    match commit with
    | none => checkout_branch s
    | some c => checkout s c
  match co with
  | .error e => .error e
  | .ok s1 =>
    let module_dir := (get_component_dir s1 module_name "modules").getD []
    let check : String → Bool := fun f =>
      match findFile s1.workTree (module_dir ++ [f]), findFile base_path [f] with
      | some f1, some f2 => filecmp_cmp f1 f2
      | _, _ => true
    let files_identical := [("main.nf", check "main.nf"), ("meta.yml", check "meta.yml")]
    match checkout_branch s1 with
    | .error e => .error e
    | .ok s2 => .ok (files_identical, s2)

/-- A record of `get_component_git_log`: commit sha and truncated message. -/
structure CommitRecord where
  git_sha : String
  trunc_message : String
deriving Repr, DecidableEq

/-- Build the record dict of `get_component_git_log` for one commit. -/
def mkCommitRecord (c : Commit) : CommitRecord :=
  { git_sha := c.sha, trunc_message := truncMessage c.message }

/-- Whether a commit modified something at or below `p` (git path filter). -/
def touchesPath (c : Commit) (p : List String) : Bool :=
  c.touched.any (fun t => p.isPrefixOf t)

/-- `repo.iter_commits(max_count=d, paths=p)`: the commits of the current
history that touch `p`, capped at `d` when a cap is given. -/
def iter_commits (hist : List Commit) (maxCount : Option Nat) (p : List String) :
    List Commit :=
  let l := hist.filter (fun c => touchesPath c p)
  match maxCount with
  | none => l
  | some d => l.take d

/-- `get_component_git_log` (line 390): checkout the branch tip, walk the
history restricted to `component_type/repo_path/name`, and for kind
`"modules"` also the history restricted to the legacy layout path
`modules/name`, appending those records after the current-layout ones.  The
depth cap is passed to each `iter_commits` call separately. -/
def get_component_git_log (s : MRState) (component_name : List String)
    (component_type : String) (depth : Option Nat) :
    Except RepoError (List CommitRecord × MRState) :=
  match checkout_branch s with
  | .error e => .error e
  | .ok s1 =>
    let hist := (branchHistoryOf s1).getD []
    let commits_new :=
      (iter_commits hist depth ([component_type, s1.repoPath] ++ component_name)).map
        mkCommitRecord
    let commits_old :=
      if component_type = "modules" then
        (iter_commits hist depth (["modules"] ++ component_name)).map mkCommitRecord
      else []
    .ok (commits_new ++ commits_old, s1)

/-- `get_latest_component_version` (line 419): first record of the depth-1
git log; an empty log raises Python's `IndexError` on the `[0]` access. -/
def get_latest_component_version (s : MRState) (component_name : List String)
    (component_type : String) : Except RepoError (String × MRState) :=
  match get_component_git_log s component_name component_type (some 1) with
  | .error e => .error e
  | .ok (recs, s1) =>
    match recs with
    | [] => .error .indexError
    | r :: _ => .ok (r.git_sha, s1)

/-- The dict built by `get_remote_branches` (line 90): entries are keyed by
sha (later listings overwrite earlier ones), `HEAD` lines are skipped, and
the stored value is `Path(name).stem`. -/
def remoteBranchesDict (lines : List (String × String)) : List (String × String) :=
  lines.foldl
    (fun d p => if p.2 == "HEAD" then d else dictInsert d p.1 (pathStem p.2)) []

/-- `get_remote_branches` (line 90), over the already `\t`-split ls-remote
lines: the set of values of the sha-keyed dict. -/
def get_remote_branches (lines : List (String × String)) : List String :=
  ((remoteBranchesDict lines).map Prod.snd).dedup

/-- The process-wide class attributes of `ModulesRepo`
(`local_repo_statuses`, `no_pull_global`) together with the observable
environment of `setup_local_repo`: which cache directories exist and how many
clone / fetch network calls were issued. -/
structure ProcState where
  statuses : List (String × Bool)
  noPullGlobal : Bool
  dirExists : List String
  cloneCount : Nat
  fetchCount : Nat
deriving Repr, DecidableEq

/-- The class attributes at process start: no repo synced, `no_pull_global`
false, and whatever cache directories are already on disk. -/
def initialProcState (dirs : List String) : ProcState :=
  { statuses := [], noPullGlobal := false, dirExists := dirs,
    cloneCount := 0, fetchCount := 0 }

/-- `local_repo_synced` (line 76): status lookup defaulting to `False`. -/
def local_repo_synced (ps : ProcState) (repo_name : String) : Bool :=
  (lookupA ps.statuses repo_name).getD false

/-- `update_local_repo_status` (line 83). -/
def update_local_repo_status (ps : ProcState) (repo_name : String)
    (up_to_date : Bool) : ProcState :=
  { ps with statuses := dictInsert ps.statuses repo_name up_to_date }

/-- `repo_full_name_from_remote` — Modelled from the spec: the function lives
in `nf_core/modules/modules_utils.py`, which is not part of the sources under
study; the spec states the full name is an `owner/repo`-style identity that
is a pure function of the remote URL, used as the cache-directory and
sync-status key.  Modelled as the last two path components of the URL with a
trailing `.git` stripped. -/
def repo_full_name_from_remote (url : String) : String :=
  let comps := splitOnChar '/' url.data
  let comps := comps.drop (comps.length - 2)
  let joined := (comps.intersperse ['/']).flatten
  if joined.reverse.take 4 = ['t', 'i', 'g', '.'] then
    String.mk (joined.take (joined.length - 4))
  else String.mk joined

/-- `get_default_branch` (line 260): the branch `origin/HEAD` points to; the
two-element unpack of `name.split("/")` raises a `ValueError` when the name
does not have exactly two components. -/
def get_default_branch (s : MRState) : Except RepoError String :=
  match splitOnChar '/' s.repo.originHeadTarget.data with
  | [_, b] => .ok (String.mk b)
  | _ => .error .valueError

/-- `branch_exists` (line 268): try to check the branch out; a
`GitCommandError` is converted into a `LookupError` naming branch and
remote. -/
def branch_exists (s : MRState) : Except RepoError MRState :=
  match checkout_branch s with
  | .ok s1 => .ok s1
  | .error _ =>
    .error (.lookupError
      ("Branch '" ++ s.branch ++ "' not found in '" ++ s.remoteUrl ++ "'"))

/-- `setup_branch` (line 240): resolve the branch (explicit, fixed `master`
for the canonical remote, or the remote's default via `origin/HEAD`), then
verify it by checking it out.  The boolean records whether
`get_default_branch` was consulted. -/
def setup_branch (s : MRState) (branch : Option String) :
    Except RepoError (MRState × Bool) :=
  match branch with
  | some b =>
    match branch_exists { s with branch := b } with
    | .ok s1 => .ok (s1, false)
    | .error e => .error e
  | none =>
    if s.remoteUrl = NF_CORE_MODULES_REMOTE then
      match branch_exists { s with branch := "master" } with
      | .ok s1 => .ok (s1, false)
      | .error e => .error e
    else
      match get_default_branch s with
      | .error e => .error e
      | .ok b =>
        match branch_exists { s with branch := b } with
        | .ok s1 => .ok (s1, true)
        | .error e => .error e

/-- `verify_branch` (line 277): `os.listdir(self.local_repo_dir)` must
contain `modules`; otherwise a `LookupError` whose message carries the
`software/` rename hint exactly when a `software` entry is present. -/
def topLevelNames (tree : List FileEntry) : List String :=
  (tree.filterMap (fun e => e.path.head?)).dedup

/-- `verify_branch` (line 277). -/
def verify_branch (s : MRState) : Except RepoError Unit :=
  if "modules" ∈ topLevelNames s.workTree then .ok ()
  else .error (.lookupError
    (("Repository '" ++ s.remoteUrl ++ "' (" ++ s.branch ++
      ") does not contain the 'modules/' directory") ++
     (if "software" ∈ topLevelNames s.workTree then
       ".\nAs of nf-core/tools version 2.0, the 'software/' directory should be renamed to 'modules/'"
     else "")))

/-- The environment a `ModulesRepo.__init__` run observes: the repository
reached through the remote (the model's branch histories stand for the
post-fetch / post-merge state), whether a clone attempt would succeed, the
ref and tree a pre-existing cache directory is left at, and the `org_path`
value of the registry's tools config (`load_tools_config` is not part of the
sources under study; modelled from the spec: the config file must declare
the organizational sub-path, and its absence is fatal). -/
structure InitEnv where
  repo : GitRepo
  cloneOk : Bool
  initialRef : Ref
  initialTree : List FileEntry
  orgPath : Option String
deriving Repr, DecidableEq

/-- The `MRState` right after `git.Repo` / `git.Repo.clone_from`, before any
branch is resolved. -/
def initialMRState (env : InitEnv) (remoteUrl : String) : MRState :=
  { repo := env.repo, remoteUrl := remoteUrl, branch := "", repoPath := "",
    activeRef := env.initialRef, workTree := env.initialTree }

/-- Result of `setup_local_repo`: the instance state plus observations
(whether the default branch was queried, whether a merge with a tracking
branch was performed and with which). -/
structure SetupOut where
  state : MRState
  queriedDefault : Bool
  merged : Bool
  mergeTarget : Option String
deriving Repr, DecidableEq

/-- `setup_local_repo` (line 169).  Fresh path: clone (a failed clone raises
a `LookupError`), mark synced, resolve the branch.  Pre-existing path: mark
synced when `no_pull_global` is set, fetch only when not yet synced, resolve
the branch, then merge with the branch's remote tracking branch — its absence
raises a `LookupError`.  The interactive delete-and-retry recovery
(lines 231-238) only re-runs the same code after user confirmation and is not
modelled; fetch and merge engine failures are outside the model.  The
`ProcState` is returned in all cases, as the Python class attributes survive
an exception. -/
def setup_local_repo (ps : ProcState) (env : InitEnv) (remoteUrl fullname : String)
    (branch : Option String) : ProcState × Except RepoError SetupOut :=
  let s0 := initialMRState env remoteUrl
  if fullname ∈ ps.dirExists then
    let ps1 := if ps.noPullGlobal then update_local_repo_status ps fullname true else ps
    let ps2 :=
      if local_repo_synced ps1 fullname then ps1
      else update_local_repo_status { ps1 with fetchCount := ps1.fetchCount + 1 } fullname true
    match setup_branch s0 branch with
    | .error e => (ps2, .error e)
    | .ok (s1, q) =>
      match lookupA env.repo.trackingBranches s1.branch with
      | none =>
        (ps2, .error (.lookupError
          ("There is no remote tracking branch '" ++ s1.branch ++ "' in '" ++
            remoteUrl ++ "'")))
      | some t =>
        (ps2, .ok { state := s1, queriedDefault := q, merged := true, mergeTarget := some t })
  else
    let ps1 := { ps with cloneCount := ps.cloneCount + 1 }
    if env.cloneOk then
      let ps2 := update_local_repo_status
        { ps1 with dirExists := ps1.dirExists ++ [fullname] } fullname true
      match setup_branch s0 branch with
      | .error e => (ps2, .error e)
      | .ok (s1, q) =>
        (ps2, .ok { state := s1, queriedDefault := q, merged := false, mergeTarget := none })
    else
      (ps1, .error (.lookupError ("Failed to clone from the remote: `" ++ remoteUrl ++ "`")))

/-- The caller-supplied arguments of `ModulesRepo.__init__`. -/
structure InitArgs where
  remoteUrl : Option String
  branch : Option String
  noPull : Bool
deriving Repr, DecidableEq

/-- Result of a successful `ModulesRepo.__init__`, with the observations of
`setup_local_repo` plus whether the `verify_branch` configuration check was
executed. -/
structure InitOut where
  state : MRState
  queriedDefault : Bool
  merged : Bool
  mergeTarget : Option String
  verifyCalled : Bool
deriving Repr, DecidableEq

/-- `ModulesRepo.__init__` (line 115): fold `no_pull` into the global flag,
default the remote to the canonical URL, set up the local repo, read
`org_path` from the tools config (its absence raises a `UserWarning`), and
run `verify_branch` when `self.repo_path != NF_CORE_MODULES_NAME or
self.branch` — with `self.branch` a (truthy iff nonempty) string. -/
def modules_repo_init (ps : ProcState) (env : InitEnv) (args : InitArgs) :
    ProcState × Except RepoError InitOut :=
  let ps1 := { ps with noPullGlobal := ps.noPullGlobal || args.noPull }
  let remoteUrl := args.remoteUrl.getD NF_CORE_MODULES_REMOTE
  let fullname := repo_full_name_from_remote remoteUrl
  let (ps2, out) := setup_local_repo ps1 env remoteUrl fullname args.branch
  (ps2,
    match out with
    | .error e => .error e
    | .ok so =>
      match env.orgPath with
      | none => .error (.userWarning "'org_path' key not present in .nf-core.yml")
      | some p =>
        let s2 := { so.state with repoPath := p }
        if s2.repoPath ≠ NF_CORE_MODULES_NAME ∨ s2.branch ≠ "" then
          match verify_branch s2 with
          | .error e => .error e
          | .ok _ =>
            .ok { state := s2, queriedDefault := so.queriedDefault, merged := so.merged,
                  mergeTarget := so.mergeTarget, verifyCalled := true }
        else
          .ok { state := s2, queriedDefault := so.queriedDefault, merged := so.merged,
                mergeTarget := so.mergeTarget, verifyCalled := false })

/-! ### Concrete states used by counterexamples and witnesses -/

/-- A `main.nf` file of the `fastqc` module at the branch tip. -/
def exMainNf : FileEntry :=
  { path := ["modules", "nf-core", "fastqc", "main.nf"],
    content := "process FASTQC", mtime := 3 }

/-- An old commit that predates the `fastqc` module. -/
def exCommitOld : Commit :=
  { sha := "c1", message := "initial commit",
    touched := [["docs", "README.md"]],
    tree := [{ path := ["docs", "README.md"], content := "readme", mtime := 1 }] }

/-- The tip commit, which added the `fastqc` module. -/
def exCommitTip : Commit :=
  { sha := "t1", message := "add fastqc module\nwith details",
    touched := [["modules", "nf-core", "fastqc", "main.nf"]],
    tree := [exMainNf] }

/-- A two-commit repository on `master` with a tracking branch. -/
def exRepo : GitRepo :=
  { branches := [("master", [exCommitTip, exCommitOld])],
    originHeadTarget := "origin/master",
    trackingBranches := [("master", "origin/master")] }

/-- A `ModulesRepo` state checked out at the tip of `master`. -/
def exState : MRState :=
  { repo := exRepo, remoteUrl := NF_CORE_MODULES_REMOTE, branch := "master",
    repoPath := "nf-core", activeRef := .branch "master", workTree := exCommitTip.tree }

/-- `exState` after `checkout "c1"`: detached at the old commit. -/
def exStateAtC1 : MRState :=
  { exState with activeRef := .commit "c1", workTree := exCommitOld.tree }

/-- Upstream `main.nf` whose stat signature matches `exBaseMainNf` although
the bytes differ. -/
def exUpMainNf : FileEntry :=
  { path := ["modules", "nf-core", "fastqc", "main.nf"], content := "ab", mtime := 5 }

/-- Local pipeline `main.nf` differing from upstream only in content. -/
def exBaseMainNf : FileEntry := { path := ["main.nf"], content := "cd", mtime := 5 }

/-- Tip commit for the `filecmp` scenario. -/
def exCommitCmp : Commit :=
  { sha := "t2", message := "tweak fastqc",
    touched := [["modules", "nf-core", "fastqc", "main.nf"]], tree := [exUpMainNf] }

/-- Repository for the `filecmp` scenario. -/
def exRepoCmp : GitRepo :=
  { branches := [("master", [exCommitCmp])],
    originHeadTarget := "origin/master",
    trackingBranches := [("master", "origin/master")] }

/-- State checked out at the tip for the `filecmp` scenario. -/
def exStateCmp : MRState :=
  { repo := exRepoCmp, remoteUrl := NF_CORE_MODULES_REMOTE, branch := "master",
    repoPath := "nf-core", activeRef := .branch "master", workTree := [exUpMainNf] }

/-- A commit whose tree has a legacy `software/` layout and no `modules/`. -/
def exCommitSoftware : Commit :=
  { sha := "s1", message := "legacy layout",
    touched := [["software", "fastqc", "main.nf"]],
    tree := [{ path := ["software", "fastqc", "main.nf"], content := "x", mtime := 0 }] }

/-- Repository whose `master` tip has the legacy layout. -/
def exRepoSoftware : GitRepo :=
  { branches := [("master", [exCommitSoftware])],
    originHeadTarget := "origin/master",
    trackingBranches := [("master", "origin/master")] }

/-- Environment for a fresh clone of the legacy-layout repository the
canonical way (`org_path` configured as `nf-core`). -/
def exEnvSoftware : InitEnv :=
  { repo := exRepoSoftware, cloneOk := true, initialRef := .branch "master",
    initialTree := [], orgPath := some "nf-core" }

/-- Arguments of a plain `ModulesRepo()` construction: canonical remote,
default branch, pulls allowed. -/
def exArgsDefault : InitArgs := { remoteUrl := none, branch := none, noPull := false }

/-- Environment for the well-formed example repository. -/
def exEnv : InitEnv :=
  { repo := exRepo, cloneOk := true, initialRef := .branch "master",
    initialTree := [], orgPath := some "nf-core" }

/-- The instance state reached by the C7 witness run (no `org_path` applied
yet, branch `master` checked out at the tip). -/
def exStateNoOrg : MRState :=
  { repo := exRepo, remoteUrl := NF_CORE_MODULES_REMOTE, branch := "master",
    repoPath := "", activeRef := .branch "master", workTree := exCommitTip.tree }

/-- State at the tip of the legacy-layout repository, used to witness the
amended C2's message characterization. -/
def exStateSoftware : MRState :=
  { repo := exRepoSoftware, remoteUrl := NF_CORE_MODULES_REMOTE, branch := "master",
    repoPath := "nf-core", activeRef := .branch "master",
    workTree := exCommitSoftware.tree }

/-- Lines used by the C10 witness. -/
def exLines : List (String × String) :=
  [("s1", "refs/heads/feature/x"), ("s2", "refs/heads/main"), ("s3", "HEAD")]

/-! ### Helper lemmas -/

/-- `checkout` preserves every field except the active ref and the tree. -/
theorem checkout_ok_fields {s s1 : MRState} {c : String}
    (h : checkout s c = .ok s1) :
    s1.branch = s.branch ∧ s1.repo = s.repo ∧ s1.repoPath = s.repoPath ∧
      s1.remoteUrl = s.remoteUrl ∧ s1.activeRef = Ref.commit c := by
  unfold checkout at h
  split at h
  · cases h; exact ⟨rfl, rfl, rfl, rfl, rfl⟩
  · cases h

/-- A successful `checkout_branch` lands on the branch tip and preserves the
identity fields; the branch must exist. -/
theorem checkout_branch_ok_fields {s s1 : MRState}
    (h : checkout_branch s = .ok s1) :
    s1.branch = s.branch ∧ s1.repo = s.repo ∧ s1.repoPath = s.repoPath ∧
      s1.remoteUrl = s.remoteUrl ∧ s1.activeRef = Ref.branch s.branch ∧
      ∃ hist, branchHistoryOf s = some hist ∧ s1.workTree = tipTree hist := by
  unfold checkout_branch at h
  split at h
  · cases h
    exact ⟨rfl, rfl, rfl, rfl, rfl, _, by assumption, rfl⟩
  · cases h

/-- `get_avail_components` with `checkout=False` does not move the working
copy. -/
theorem get_avail_components_no_checkout {s s1 : MRState} {ctype : String}
    {names : List (List String)}
    (h : get_avail_components s ctype false = .ok (names, s1)) : s1 = s := by
  unfold get_avail_components at h
  simp only [Bool.false_eq_true, if_false] at h
  split at h
  · cases h
    rfl
  · split at h
    · cases h
      rfl
    · cases h

/-- `component_exists` with `checkout=False` does not move the working copy. -/
theorem component_exists_no_checkout_state {s s2 : MRState} {name : List String}
    {ctype : String} {b : Bool}
    (h : component_exists s name ctype false = .ok (b, s2)) : s2 = s := by
  unfold component_exists at h
  split at h
  · cases h
  · next names s1 heq =>
    cases h
    exact get_avail_components_no_checkout heq

/-! ### C1 -/

/-- Claim C1, as stated, is false: `install_component` on a commit at which
the component is absent returns failure with the working copy still detached
at that commit, not at the resolved branch tip. -/
theorem c1_counterexample :
    install_component exState ["fastqc"] ["pipe"] "c1" "modules" =
      Except.ok (false, exStateAtC1, []) ∧
    exStateAtC1.activeRef ≠ Ref.branch exState.branch := by
  exact ⟨rfl, by decide⟩

/-- Claim C1 (amended): after `install_component` the working copy's active
ref is the resolved branch tip only on the success path; when checkout of the
commit fails the state is returned unchanged, and when the component is
absent at the commit the working copy remains detached at that commit. -/
theorem c1_amended (s : MRState) (name dir : List String) (commit ctype : String) :
    (∀ s' created, install_component s name dir commit ctype =
        .ok (true, s', created) → s'.activeRef = Ref.branch s.branch) ∧
    (findCommit s.repo commit = none →
      install_component s name dir commit ctype = .ok (false, s, [])) ∧
    (∀ s1 s2, checkout s commit = .ok s1 →
      component_exists s1 name ctype false = .ok (false, s2) →
      install_component s name dir commit ctype = .ok (false, s2, []) ∧
        s2.activeRef = Ref.commit commit) := by
  refine ⟨?_, ?_, ?_⟩
  · intro s' created h
    unfold install_component at h
    split at h
    · cases h
    · next s1 hco =>
      split at h
      · cases h
      · next ex s2 hex =>
        split at h
        · split at h
          · cases h
          · split at h
            · cases h
            · next s3 hcb =>
              cases h
              have h3 := checkout_branch_ok_fields hcb
              have h2 := component_exists_no_checkout_state hex
              have h1 := checkout_ok_fields hco
              rw [h3.2.2.2.2.1, h2, h1.1]
        · cases h
  · intro hnone
    unfold install_component checkout
    rw [hnone]
  · intro s1 s2 h1 h2
    constructor
    · unfold install_component
      rw [h1]
      simp [h2]
    · rw [component_exists_no_checkout_state h2]
      exact (checkout_ok_fields h1).2.2.2.2

/-- Concrete witness for the amended C1: the absent-component failure path,
exercised on the two-commit example repository. -/
theorem c1_amended_witness :
    install_component exState ["fastqc"] ["pipe"] "c1" "modules" =
      Except.ok (false, exStateAtC1, []) ∧
    exStateAtC1.activeRef = Ref.commit "c1" :=
  (c1_amended exState ["fastqc"] ["pipe"] "c1" "modules").2.2 exStateAtC1 exStateAtC1
    rfl rfl

/-! ### C9 -/

/-- Claim C9: when the requested component does not exist at the requested
commit, `install_component` returns failure and creates no files under the
target install directory (the copy step is never reached). -/
theorem c9_absent_component_no_files (s s1 s2 : MRState) (name dir : List String)
    (commit ctype : String)
    (h1 : checkout s commit = .ok s1)
    (h2 : component_exists s1 name ctype false = .ok (false, s2)) :
    install_component s name dir commit ctype = .ok (false, s2, []) := by
  unfold install_component
  rw [h1]
  simp [h2]

/-- Concrete witness for C9 on the two-commit example repository. -/
theorem c9_absent_component_no_files_witness :
    install_component exState ["fastqc"] ["pipe"] "c1" "modules" =
      Except.ok (false, exStateAtC1, []) :=
  c9_absent_component_no_files exState exStateAtC1 exStateAtC1 ["fastqc"] ["pipe"]
    "c1" "modules" rfl rfl

/-! ### C3 -/

/-- Claim C3, as stated, is false: `module_files_identical` does not perform
a byte-for-byte comparison.  With both files present and differing in content
but agreeing in size and mtime, `filecmp.cmp`'s default shallow comparison
reports `True` for `main.nf`. -/
theorem c3_counterexample :
    module_files_identical exStateCmp ["fastqc"] [exBaseMainNf] none =
      Except.ok ([("main.nf", true), ("meta.yml", true)], exStateCmp) ∧
    findFile exStateCmp.workTree ["modules", "nf-core", "fastqc", "main.nf"] =
      some exUpMainNf ∧
    findFile [exBaseMainNf] ["main.nf"] = some exBaseMainNf ∧
    exUpMainNf.content ≠ exBaseMainNf.content :=
  ⟨rfl, rfl, rfl, by decide⟩

/-- Claim C3 (amended): the returned map has exactly the keys `main.nf` and
`meta.yml`; a missing upstream or local file leaves the default `true`;
otherwise the entry is `filecmp.cmp`'s default shallow comparison (equal
stat signature short-circuits to `true` without reading bytes); and the
branch tip is checked out again before returning. -/
theorem c3_amended (s : MRState) (name : List String) (base : List FileEntry)
    (commit : Option String) (result : List (String × Bool)) (s2 : MRState)
    (h : module_files_identical s name base commit = .ok (result, s2)) :
    result.map Prod.fst = ["main.nf", "meta.yml"] ∧
    s2.activeRef = Ref.branch s.branch ∧
    ∃ s1, (match commit with
           | none => checkout_branch s
           | some c => checkout s c) = .ok s1 ∧
      result =
        [("main.nf",
           match findFile s1.workTree (modules_dir s1 ++ name ++ ["main.nf"]),
                 findFile base ["main.nf"] with
           | some f1, some f2 => filecmp_cmp f1 f2
           | _, _ => true),
         ("meta.yml",
           match findFile s1.workTree (modules_dir s1 ++ name ++ ["meta.yml"]),
                 findFile base ["meta.yml"] with
           | some f1, some f2 => filecmp_cmp f1 f2
           | _, _ => true)] := by
  unfold module_files_identical at h
  cases commit with
  | none =>
    dsimp only at h
    split at h
    · cases h
    · next s1 heq =>
      split at h
      · cases h
      · next s2' hcb =>
        cases h
        refine ⟨rfl, ?_, s1, heq, ?_⟩
        · rw [(checkout_branch_ok_fields hcb).2.2.2.2.1,
              (checkout_branch_ok_fields heq).1]
        · simp [get_component_dir]
  | some c =>
    dsimp only at h
    split at h
    · cases h
    · next s1 heq =>
      split at h
      · cases h
      · next s2' hcb =>
        cases h
        refine ⟨rfl, ?_, s1, heq, ?_⟩
        · rw [(checkout_branch_ok_fields hcb).2.2.2.2.1,
              (checkout_ok_fields heq).1]
        · simp [get_component_dir]

/-- Concrete witness for the amended C3 on the shallow-compare scenario. -/
theorem c3_amended_witness :
    ([("main.nf", true), ("meta.yml", true)] : List (String × Bool)).map Prod.fst =
      ["main.nf", "meta.yml"] ∧
    exStateCmp.activeRef = Ref.branch exStateCmp.branch :=
  ⟨(c3_amended exStateCmp ["fastqc"] [exBaseMainNf] none
      [("main.nf", true), ("meta.yml", true)] exStateCmp rfl).1,
   (c3_amended exStateCmp ["fastqc"] [exBaseMainNf] none
      [("main.nf", true), ("meta.yml", true)] exStateCmp rfl).2.1⟩

/-- Shape of `get_component_git_log` when the branch exists: current-layout
records first, then (for kind `modules` only) the legacy-layout records. -/
theorem get_component_git_log_eq (s : MRState) (name : List String) (ctype : String)
    (d : Option Nat) (hist : List Commit)
    (h : lookupA s.repo.branches s.branch = some hist) :
    get_component_git_log s name ctype d =
      .ok (((iter_commits hist d ([ctype, s.repoPath] ++ name)).map mkCommitRecord) ++
           (if ctype = "modules" then
             ((iter_commits hist d (["modules"] ++ name)).map mkCommitRecord)
           else []),
           { s with activeRef := .branch s.branch, workTree := tipTree hist }) := by
  have hcb : checkout_branch s =
      .ok { s with activeRef := .branch s.branch, workTree := tipTree hist } := by
    unfold checkout_branch branchHistoryOf
    rw [h]
  unfold get_component_git_log
  rw [hcb]
  dsimp only [branchHistoryOf]
  rw [h]
  rfl

/-! ### C4 -/

/-- Claim C4: `get_component_git_log` applies the depth cap per layout
convention, not in total — for kind `modules` it returns up to `d` records
from the current-layout path followed by up to `d` records from the legacy
path (legacy strictly after current), and for any other kind only the
current-layout records. -/
theorem c4_depth_caps_per_convention (s : MRState) (name : List String) (d : Nat)
    (hist : List Commit) (h : lookupA s.repo.branches s.branch = some hist) :
    (get_component_git_log s name "modules" (some d) =
      .ok ((((hist.filter
              (fun c => touchesPath c (["modules", s.repoPath] ++ name))).take d).map
              mkCommitRecord) ++
           (((hist.filter
              (fun c => touchesPath c (["modules"] ++ name))).take d).map
              mkCommitRecord),
           { s with activeRef := .branch s.branch, workTree := tipTree hist }) ∧
     ((((hist.filter
          (fun c => touchesPath c (["modules", s.repoPath] ++ name))).take d).map
          mkCommitRecord)).length ≤ d ∧
     ((((hist.filter
          (fun c => touchesPath c (["modules"] ++ name))).take d).map
          mkCommitRecord)).length ≤ d) ∧
    (∀ ctype, ctype ≠ "modules" →
      get_component_git_log s name ctype (some d) =
        .ok ((((hist.filter
                (fun c => touchesPath c ([ctype, s.repoPath] ++ name))).take d).map
                mkCommitRecord),
             { s with activeRef := .branch s.branch, workTree := tipTree hist })) := by
  refine ⟨⟨?_, ?_, ?_⟩, ?_⟩
  · rw [get_component_git_log_eq s name "modules" (some d) hist h]
    simp [iter_commits]
  · simp only [List.length_map, List.length_take]
    exact Nat.min_le_left _ _
  · simp only [List.length_map, List.length_take]
    exact Nat.min_le_left _ _
  · intro ctype hne
    rw [get_component_git_log_eq s name ctype (some d) hist h]
    simp [iter_commits, hne]

/-- Concrete witness for C4 on the two-commit example repository. -/
theorem c4_depth_caps_witness :
    get_component_git_log exState ["fastqc"] "modules" (some 5) =
      Except.ok ([{ git_sha := "t1", trunc_message := "add fastqc module" }], exState) :=
  (c4_depth_caps_per_convention exState ["fastqc"] 5 [exCommitTip, exCommitOld] rfl).1.1

/-! ### C8 -/

/-- Claim C8: `get_latest_component_version` returns the sha of the first
record of the depth-1 git log, raises `IndexError` exactly when that log is
empty, and for kind `modules` the depth-1 log is empty iff no commit of the
branch history touches the component under either layout convention. -/
theorem c8_latest_version (s : MRState) (name : List String) (ctype : String) :
    (∀ s1, get_component_git_log s name ctype (some 1) = .ok ([], s1) →
      get_latest_component_version s name ctype = .error .indexError) ∧
    (∀ r rest s1, get_component_git_log s name ctype (some 1) = .ok (r :: rest, s1) →
      get_latest_component_version s name ctype = .ok (r.git_sha, s1)) ∧
    (∀ hist, lookupA s.repo.branches s.branch = some hist → ctype = "modules" →
      ∀ recs s1, get_component_git_log s name ctype (some 1) = .ok (recs, s1) →
        (recs = [] ↔ ∀ c ∈ hist,
          touchesPath c (["modules", s.repoPath] ++ name) = false ∧
          touchesPath c (["modules"] ++ name) = false)) := by
  refine ⟨?_, ?_, ?_⟩
  · intro s1 h
    unfold get_latest_component_version
    rw [h]
  · intro r rest s1 h
    unfold get_latest_component_version
    rw [h]
  · intro hist h hm recs s1 hlog
    subst hm
    have hshape := get_component_git_log_eq s name "modules" (some 1) hist h
    rw [hlog] at hshape
    simp only [Except.ok.injEq, Prod.mk.injEq, if_pos] at hshape
    obtain ⟨rfl, -⟩ := hshape
    simp only [iter_commits]
    constructor
    · intro hnil
      have hsplit := List.append_eq_nil.mp hnil
      have h1 := List.take_eq_nil_iff.mp (List.map_eq_nil_iff.mp hsplit.1)
      have h2 := List.take_eq_nil_iff.mp (List.map_eq_nil_iff.mp hsplit.2)
      intro c hc
      rcases h1 with h1 | h1
      · omega
      · rcases h2 with h2 | h2
        · omega
        · constructor
          · have := List.filter_eq_nil_iff.mp h1 c hc
            simpa using this
          · have := List.filter_eq_nil_iff.mp h2 c hc
            simpa using this
    · intro hall
      have hall' : ∀ c ∈ hist,
          touchesPath c ("modules" :: s.repoPath :: name) = false ∧
          touchesPath c ("modules" :: name) = false := hall
      have h1 : hist.filter
          (fun c => touchesPath c (["modules", s.repoPath] ++ name)) = [] :=
        List.filter_eq_nil_iff.mpr (fun c hc => by simp [(hall' c hc).1])
      have h2 : hist.filter (fun c => touchesPath c (["modules"] ++ name)) = [] :=
        List.filter_eq_nil_iff.mpr (fun c hc => by simp [(hall' c hc).2])
      rw [h1, h2]
      simp

/-- Concrete witness for C8: the latest version of `fastqc` is the tip sha. -/
theorem c8_latest_version_witness :
    get_latest_component_version exState ["fastqc"] "modules" =
      Except.ok ("t1", exState) :=
  (c8_latest_version exState ["fastqc"] "modules").2.1
    { git_sha := "t1", trunc_message := "add fastqc module" } [] exState rfl

/-- A successful `branch_exists` is a successful `checkout_branch`. -/
theorem branch_exists_ok {s s1 : MRState} (h : branch_exists s = .ok s1) :
    checkout_branch s = .ok s1 := by
  unfold branch_exists at h
  split at h
  · cases h
    assumption
  · cases h

/-- `branch_exists` on a missing branch raises the `LookupError` naming the
branch and the remote. -/
theorem branch_exists_not_found {s : MRState} {b : String}
    (hb : lookupA s.repo.branches b = none) :
    branch_exists { s with branch := b } =
      .error (.lookupError
        ("Branch '" ++ b ++ "' not found in '" ++ s.remoteUrl ++ "'")) := by
  unfold branch_exists checkout_branch branchHistoryOf
  dsimp only
  rw [hb]

/-- A successful `setup_branch` resolved a branch that exists in the
repository. -/
theorem setup_branch_ok_found {s : MRState} {b : Option String} {s1 : MRState}
    {q : Bool} (h : setup_branch s b = .ok (s1, q)) :
    ∃ hist, lookupA s.repo.branches s1.branch = some hist := by
  unfold setup_branch at h
  cases b with
  | some bb =>
    dsimp only at h
    split at h
    · next heq =>
      cases h
      have hf := checkout_branch_ok_fields (branch_exists_ok heq)
      obtain ⟨hist, hh, -⟩ := hf.2.2.2.2.2
      exact ⟨hist, by rw [hf.1]; exact hh⟩
    · cases h
  | none =>
    dsimp only at h
    split at h
    · split at h
      · next heq =>
        cases h
        have hf := checkout_branch_ok_fields (branch_exists_ok heq)
        obtain ⟨hist, hh, -⟩ := hf.2.2.2.2.2
        exact ⟨hist, by rw [hf.1]; exact hh⟩
      · cases h
    · split at h
      · cases h
      · next db hdb =>
        split at h
        · next heq =>
          cases h
          have hf := checkout_branch_ok_fields (branch_exists_ok heq)
          obtain ⟨hist, hh, -⟩ := hf.2.2.2.2.2
          exact ⟨hist, by rw [hf.1]; exact hh⟩
        · cases h

/-! ### C6 -/

/-- Claim C6: branch resolution uses the caller's branch when supplied;
otherwise the canonical remote defaults to the fixed name `master` with no
default-branch query, and any other remote takes its default branch from the
`origin/HEAD` symbolic ref (a query); in every case the branch is verified by
checking it out, and a checkout failure surfaces as a `LookupError` naming
the branch and the remote, not as a `GitCommandError`. -/
theorem c6_branch_resolution (s : MRState) :
    (∀ b s1 q, setup_branch s (some b) = .ok (s1, q) →
      s1.branch = b ∧ q = false ∧ s1.activeRef = Ref.branch b) ∧
    (s.remoteUrl = NF_CORE_MODULES_REMOTE →
      ∀ s1 q, setup_branch s none = .ok (s1, q) →
        s1.branch = "master" ∧ q = false ∧ s1.activeRef = Ref.branch "master") ∧
    (s.remoteUrl ≠ NF_CORE_MODULES_REMOTE →
      ∀ db, get_default_branch s = .ok db →
      ∀ s1 q, setup_branch s none = .ok (s1, q) →
        s1.branch = db ∧ q = true ∧ s1.activeRef = Ref.branch db) ∧
    (∀ b, lookupA s.repo.branches b = none →
      setup_branch s (some b) =
        .error (.lookupError
          ("Branch '" ++ b ++ "' not found in '" ++ s.remoteUrl ++ "'"))) ∧
    (s.remoteUrl = NF_CORE_MODULES_REMOTE →
      lookupA s.repo.branches "master" = none →
      setup_branch s none =
        .error (.lookupError
          ("Branch 'master' not found in '" ++ s.remoteUrl ++ "'"))) := by
  refine ⟨?_, ?_, ?_, ?_, ?_⟩
  · intro b s1 q h
    unfold setup_branch at h
    dsimp only at h
    split at h
    · next heq =>
      cases h
      have hf := checkout_branch_ok_fields (branch_exists_ok heq)
      exact ⟨hf.1, rfl, hf.2.2.2.2.1⟩
    · cases h
  · intro hcan s1 q h
    unfold setup_branch at h
    dsimp only at h
    rw [if_pos hcan] at h
    split at h
    · next heq =>
      cases h
      have hf := checkout_branch_ok_fields (branch_exists_ok heq)
      exact ⟨hf.1, rfl, hf.2.2.2.2.1⟩
    · cases h
  · intro hne db hdb s1 q h
    unfold setup_branch at h
    dsimp only at h
    rw [if_neg hne, hdb] at h
    dsimp only at h
    split at h
    · next heq =>
      cases h
      have hf := checkout_branch_ok_fields (branch_exists_ok heq)
      exact ⟨hf.1, rfl, hf.2.2.2.2.1⟩
    · cases h
  · intro b hb
    unfold setup_branch
    dsimp only
    rw [branch_exists_not_found hb]
  · intro hcan hb
    unfold setup_branch
    dsimp only
    rw [if_pos hcan, branch_exists_not_found hb]
    rfl

/-- Concrete witness for C6: an explicit existing branch resolves to itself,
and a missing branch yields the `LookupError` naming branch and remote. -/
theorem c6_branch_resolution_witness :
    (exState.branch = "master" ∧ false = false ∧
      exState.activeRef = Ref.branch "master") ∧
    setup_branch exState (some "dev") =
      Except.error (.lookupError
        "Branch 'dev' not found in 'https://github.com/nf-core/modules.git'") :=
  ⟨(c6_branch_resolution exState).1 "master" exState false rfl,
   (c6_branch_resolution exState).2.2.2.1 "dev" rfl⟩

/-! ### C7 -/

/-- Claim C7: for a pre-existing local repository, `setup_local_repo` merges
the resolved branch with its remote tracking branch after branch
verification, and raises a `LookupError` naming branch and remote when no
tracking branch is configured; a freshly cloned repository performs no
merge. -/
theorem c7_tracking_merge (ps : ProcState) (env : InitEnv)
    (remoteUrl fullname : String) (branch : Option String) :
    (fullname ∈ ps.dirExists →
      ∀ s1 q, setup_branch (initialMRState env remoteUrl) branch = .ok (s1, q) →
        (lookupA env.repo.trackingBranches s1.branch = none →
          (setup_local_repo ps env remoteUrl fullname branch).2 =
            .error (.lookupError
              ("There is no remote tracking branch '" ++ s1.branch ++ "' in '" ++
                remoteUrl ++ "'"))) ∧
        (∀ t, lookupA env.repo.trackingBranches s1.branch = some t →
          (setup_local_repo ps env remoteUrl fullname branch).2 =
            .ok { state := s1, queriedDefault := q, merged := true,
                  mergeTarget := some t })) ∧
    (fullname ∉ ps.dirExists →
      ∀ so, (setup_local_repo ps env remoteUrl fullname branch).2 = .ok so →
        so.merged = false) := by
  constructor
  · intro hmem s1 q hsb
    constructor
    · intro htr
      unfold setup_local_repo
      rw [if_pos hmem]
      dsimp only
      rw [hsb]
      dsimp only
      rw [htr]
    · intro t htr
      unfold setup_local_repo
      rw [if_pos hmem]
      dsimp only
      rw [hsb]
      dsimp only
      rw [htr]
  · intro hnot so h
    unfold setup_local_repo at h
    rw [if_neg hnot] at h
    dsimp only at h
    split at h
    · split at h
      · cases h
      · cases h
        rfl
    · cases h

/-- Concrete witness for C7: a pre-existing cache of the example repository
merges with `origin/master`. -/
theorem c7_tracking_merge_witness :
    (setup_local_repo (initialProcState ["nf-core/modules"]) exEnv
        NF_CORE_MODULES_REMOTE "nf-core/modules" (some "master")).2 =
      Except.ok { state := exStateNoOrg, queriedDefault := false, merged := true,
                  mergeTarget := some "origin/master" } :=
  ((c7_tracking_merge (initialProcState ["nf-core/modules"]) exEnv
      NF_CORE_MODULES_REMOTE "nf-core/modules" (some "master")).1 (by decide)
    exStateNoOrg false rfl).2 "origin/master" rfl

/-! ### C2 -/

/-- A successful `setup_local_repo` resolved a branch that exists in the
repository (so the resolved branch name is a real branch name). -/
theorem setup_local_repo_ok_branch_found {ps : ProcState} {env : InitEnv}
    {remoteUrl fullname : String} {branch : Option String} {so : SetupOut}
    (h : (setup_local_repo ps env remoteUrl fullname branch).2 = .ok so) :
    ∃ hist, lookupA env.repo.branches so.state.branch = some hist := by
  unfold setup_local_repo at h
  split at h
  · dsimp only at h
    split at h
    · cases h
    · next s1 q hsb =>
      split at h
      · cases h
      · cases h
        exact setup_branch_ok_found hsb
  · dsimp only at h
    split at h
    · split at h
      · cases h
      · next s1 q hsb =>
        cases h
        exact setup_branch_ok_found hsb
    · cases h

/-- Claim C2, as stated, is false: for the canonical registry on its default
branch (no explicit remote, no explicit branch, `org_path = "nf-core"`), the
`verify_branch` directory check is not skipped — initialization fails with
the `modules/`-missing `LookupError` (with the `software/` rename hint, since
a `software` directory is present at the repository root). -/
theorem c2_counterexample :
    (modules_repo_init (initialProcState []) exEnvSoftware exArgsDefault).2 =
      Except.error (.lookupError
        "Repository 'https://github.com/nf-core/modules.git' (master) does not contain the 'modules/' directory.\nAs of nf-core/tools version 2.0, the 'software/' directory should be renamed to 'modules/'") ∧
    exArgsDefault.remoteUrl = none ∧ exArgsDefault.branch = none ∧
    exEnvSoftware.orgPath = some NF_CORE_MODULES_NAME :=
  ⟨rfl, rfl, rfl, rfl⟩

/-- Claim C2 (amended): the `verify_branch` check runs on every
initialization that reaches it — the skip condition
`repo_path == "nf-core" and not self.branch` can never hold because the
resolved branch name is a verified (hence nonempty) branch — and the check
looks for a `modules` entry directly under the repository root, failing with
a message that carries the `software/` rename hint iff a `software` entry is
present. -/
theorem c2_amended (ps : ProcState) (env : InitEnv) (args : InitArgs)
    (hnb : lookupA env.repo.branches "" = none) :
    (∀ res, (modules_repo_init ps env args).2 = .ok res → res.verifyCalled = true) ∧
    (∀ s : MRState, "modules" ∉ topLevelNames s.workTree →
      verify_branch s = .error (.lookupError
        (("Repository '" ++ s.remoteUrl ++ "' (" ++ s.branch ++
          ") does not contain the 'modules/' directory") ++
         (if "software" ∈ topLevelNames s.workTree then
           ".\nAs of nf-core/tools version 2.0, the 'software/' directory should be renamed to 'modules/'"
         else "")))) := by
  constructor
  · intro res h
    unfold modules_repo_init at h
    dsimp only at h
    rcases hsl : setup_local_repo { ps with noPullGlobal := ps.noPullGlobal || args.noPull }
        env (args.remoteUrl.getD NF_CORE_MODULES_REMOTE)
        (repo_full_name_from_remote (args.remoteUrl.getD NF_CORE_MODULES_REMOTE))
        args.branch with ⟨ps2, out⟩
    rw [hsl] at h
    dsimp only at h
    split at h
    · cases h
    · next so =>
      split at h
      · cases h
      · next p hp =>
        split at h
        · split at h
          · cases h
          · cases h
            rfl
        · next hcond =>
          exfalso
          have hbr : so.state.branch = "" := by
            by_contra hne
            exact hcond (Or.inr hne)
          have hfound : (setup_local_repo
              { ps with noPullGlobal := ps.noPullGlobal || args.noPull } env
              (args.remoteUrl.getD NF_CORE_MODULES_REMOTE)
              (repo_full_name_from_remote (args.remoteUrl.getD NF_CORE_MODULES_REMOTE))
              args.branch).2 = .ok so := by
            rw [hsl]
          obtain ⟨hist, hh⟩ := setup_local_repo_ok_branch_found hfound
          rw [hbr, hnb] at hh
          cases hh
  · intro s hmod
    unfold verify_branch
    rw [if_neg hmod]

/-- Concrete witness for the amended C2: the successful canonical-default
initialization of the well-formed example repository runs `verify_branch`,
and the legacy-layout state produces the hint-carrying message. -/
theorem c2_amended_witness :
    ({ state := exState, queriedDefault := false, merged := false,
       mergeTarget := none, verifyCalled := true } : InitOut).verifyCalled = true ∧
    verify_branch exStateSoftware = Except.error (.lookupError
      "Repository 'https://github.com/nf-core/modules.git' (master) does not contain the 'modules/' directory.\nAs of nf-core/tools version 2.0, the 'software/' directory should be renamed to 'modules/'") :=
  ⟨(c2_amended (initialProcState []) exEnv exArgsDefault rfl).1
      { state := exState, queriedDefault := false, merged := false,
        mergeTarget := none, verifyCalled := true } rfl,
   (c2_amended (initialProcState []) exEnv exArgsDefault rfl).2 exStateSoftware
      (by decide)⟩

/-! ### Dictionary lemmas -/

/-- One step of `lookupA`. -/
theorem lookupA_cons {α : Type} (p : String × α) (d : List (String × α))
    (k : String) :
    lookupA (p :: d) k = if (p.1 == k) = true then some p.2 else lookupA d k := by
  unfold lookupA
  simp only [List.find?]
  split
  · next hh =>
    rw [if_pos hh]
    rfl
  · next hh => rw [if_neg (by simp [hh])]

/-- Overwriting-in-place stores the new value. -/
theorem lookupA_map_overwrite {α : Type} (k : String) (v : α) :
    ∀ d : List (String × α), d.any (fun p => p.1 == k) = true →
      lookupA (d.map (fun p => if p.1 == k then (k, v) else p)) k = some v := by
  intro d
  induction d with
  | nil => intro h; simp at h
  | cons p rest ih =>
    intro h
    simp only [List.map_cons]
    by_cases hk : (p.1 == k) = true
    · rw [if_pos hk, lookupA_cons, if_pos (by simp)]
    · have hk' : (p.1 == k) = false := (Bool.not_eq_true _) ▸ hk
      rw [if_neg hk, lookupA_cons, if_neg hk]
      apply ih
      rw [List.any_cons, hk'] at h
      simpa using h

/-- Appending a fresh key stores the new value. -/
theorem lookupA_append_single {α : Type} (k : String) (v : α) :
    ∀ d : List (String × α), d.any (fun p => p.1 == k) = false →
      lookupA (d ++ [(k, v)]) k = some v := by
  intro d
  induction d with
  | nil =>
    intro _
    rw [List.nil_append, lookupA_cons, if_pos (by simp)]
  | cons p rest ih =>
    intro h
    have hk' : (p.1 == k) = false := by
      by_cases hb : (p.1 == k) = true
      · rw [List.any_cons, hb] at h
        simp at h
      · exact (Bool.not_eq_true _) ▸ hb
    rw [List.cons_append, lookupA_cons, if_neg (by simp [hk'])]
    apply ih
    rw [List.any_cons, hk'] at h
    simpa using h

/-- `d[k] = v` makes a later read of `k` return `v`. -/
theorem lookupA_dictInsert_self {α : Type} (d : List (String × α)) (k : String)
    (v : α) : lookupA (dictInsert d k v) k = some v := by
  unfold dictInsert
  split
  · next h => exact lookupA_map_overwrite k v d h
  · next h => exact lookupA_append_single k v d ((Bool.not_eq_true _) ▸ h)

/-- Overwriting key `k` leaves reads of `k' ≠ k` unchanged. -/
theorem lookupA_map_overwrite_ne {α : Type} (k : String) (v : α) (k' : String)
    (h : (k' == k) = false) :
    ∀ d : List (String × α),
      lookupA (d.map (fun p => if p.1 == k then (k, v) else p)) k' =
        lookupA d k' := by
  have hkk : (k == k') = false := by
    rw [beq_eq_false_iff_ne] at h ⊢
    exact fun e => h e.symm
  intro d
  induction d with
  | nil => rfl
  | cons p rest ih =>
    simp only [List.map_cons]
    by_cases hk : (p.1 == k) = true
    · have hpk : p.1 = k := by simpa using hk
      rw [if_pos hk, lookupA_cons, lookupA_cons, if_neg (by simp [hkk]),
        if_neg (by simp [hpk, hkk]), ih]
    · rw [if_neg hk, lookupA_cons, lookupA_cons]
      by_cases hq : (p.1 == k') = true
      · rw [if_pos hq, if_pos hq]
      · rw [if_neg hq, if_neg hq, ih]

/-- `d[k] = v` leaves reads of other keys unchanged. -/
theorem lookupA_dictInsert_ne {α : Type} (d : List (String × α)) (k : String)
    (v : α) (k' : String) (h : (k' == k) = false) :
    lookupA (dictInsert d k v) k' = lookupA d k' := by
  have hkk : (k == k') = false := by
    rw [beq_eq_false_iff_ne] at h ⊢
    exact fun e => h e.symm
  unfold dictInsert
  split
  · exact lookupA_map_overwrite_ne k v k' h d
  · next hany =>
    clear hany
    induction d with
    | nil => rw [List.nil_append, lookupA_cons, if_neg (by simp [hkk])]
    | cons p rest ih =>
      rw [List.cons_append, lookupA_cons, lookupA_cons]
      by_cases hq : (p.1 == k') = true
      · rw [if_pos hq, if_pos hq]
      · rw [if_neg hq, if_neg hq, ih]

/-! ### C5 -/

/-- Marking a repo synced makes `local_repo_synced` true for it. -/
theorem local_repo_synced_update_self (ps : ProcState) (n : String) :
    local_repo_synced (update_local_repo_status ps n true) n = true := by
  simp [local_repo_synced, update_local_repo_status, lookupA_dictInsert_self]

/-- The `ProcState` effect of `setup_local_repo`, independent of the branch
resolution outcome. -/
theorem setup_local_repo_fst (ps : ProcState) (env : InitEnv)
    (remoteUrl fullname : String) (branch : Option String) :
    (setup_local_repo ps env remoteUrl fullname branch).1 =
      if fullname ∈ ps.dirExists then
        (let ps1 := if ps.noPullGlobal then update_local_repo_status ps fullname true
                    else ps
         if local_repo_synced ps1 fullname then ps1
         else update_local_repo_status { ps1 with fetchCount := ps1.fetchCount + 1 }
           fullname true)
      else if env.cloneOk then
        update_local_repo_status
          { ps with
            cloneCount := ps.cloneCount + 1
            dirExists := ps.dirExists ++ [fullname] } fullname true
      else { ps with cloneCount := ps.cloneCount + 1 } := by
  by_cases hmem : fullname ∈ ps.dirExists
  · rw [if_pos hmem]
    unfold setup_local_repo
    rw [if_pos hmem]
    dsimp only
    split
    · rfl
    · split <;> rfl
  · rw [if_neg hmem]
    unfold setup_local_repo
    rw [if_neg hmem]
    dsimp only
    by_cases hc : env.cloneOk = true
    · rw [if_pos hc, if_pos hc]
      split
      · rfl
      · rfl
    · rw [if_neg hc, if_neg hc]

/-- `setup_local_repo` never touches the global no-pull flag. -/
theorem setup_local_repo_fst_noPull (ps : ProcState) (env : InitEnv)
    (remoteUrl fullname : String) (branch : Option String) :
    (setup_local_repo ps env remoteUrl fullname branch).1.noPullGlobal =
      ps.noPullGlobal := by
  rw [setup_local_repo_fst]
  dsimp only
  split
  · split
    · split <;> rfl
    · split <;> rfl
  · split
    · rfl
    · rfl

/-- After a `setup_local_repo` whose network step can succeed, the repo is
marked synced. -/
theorem setup_local_repo_synced_after (ps : ProcState) (env : InitEnv)
    (remoteUrl fullname : String) (branch : Option String)
    (hok : fullname ∉ ps.dirExists → env.cloneOk = true) :
    local_repo_synced (setup_local_repo ps env remoteUrl fullname branch).1
      fullname = true := by
  rw [setup_local_repo_fst]
  dsimp only
  by_cases hmem : fullname ∈ ps.dirExists
  · rw [if_pos hmem]
    by_cases hsy : local_repo_synced
        (if ps.noPullGlobal then update_local_repo_status ps fullname true else ps)
        fullname = true
    · rw [if_pos hsy]
      exact hsy
    · rw [if_neg hsy]
      exact local_repo_synced_update_self _ _
  · rw [if_neg hmem, if_pos (hok hmem)]
    exact local_repo_synced_update_self _ _

/-- After a `setup_local_repo` whose network step can succeed, the cache
directory exists. -/
theorem setup_local_repo_mem_after (ps : ProcState) (env : InitEnv)
    (remoteUrl fullname : String) (branch : Option String)
    (hok : fullname ∉ ps.dirExists → env.cloneOk = true) :
    fullname ∈ ((setup_local_repo ps env remoteUrl fullname branch).1).dirExists := by
  rw [setup_local_repo_fst]
  dsimp only
  by_cases hmem : fullname ∈ ps.dirExists
  · rw [if_pos hmem]
    split
    · split <;> exact hmem
    · split <;> exact hmem
  · rw [if_neg hmem, if_pos (hok hmem)]
    simp [update_local_repo_status]

/-- A `setup_local_repo` on an already-synced, already-present cache performs
no clone and no fetch. -/
theorem setup_local_repo_counts_noop (ps : ProcState) (env : InitEnv)
    (remoteUrl fullname : String) (branch : Option String)
    (hmem : fullname ∈ ps.dirExists)
    (hsync : local_repo_synced ps fullname = true) :
    (setup_local_repo ps env remoteUrl fullname branch).1.fetchCount =
        ps.fetchCount ∧
    (setup_local_repo ps env remoteUrl fullname branch).1.cloneCount =
        ps.cloneCount := by
  rw [setup_local_repo_fst]
  dsimp only
  rw [if_pos hmem]
  have hps1 : local_repo_synced
      (if ps.noPullGlobal then update_local_repo_status ps fullname true else ps)
      fullname = true := by
    split
    · exact local_repo_synced_update_self _ _
    · exact hsync
  rw [if_pos hps1]
  constructor <;> split <;> rfl

/-- The `ProcState` effect of `ModulesRepo.__init__` is the no-pull fold
followed by `setup_local_repo`'s effect. -/
theorem modules_repo_init_fst (ps : ProcState) (env : InitEnv) (args : InitArgs) :
    (modules_repo_init ps env args).1 =
      (setup_local_repo { ps with noPullGlobal := ps.noPullGlobal || args.noPull }
        env (args.remoteUrl.getD NF_CORE_MODULES_REMOTE)
        (repo_full_name_from_remote (args.remoteUrl.getD NF_CORE_MODULES_REMOTE))
        args.branch).1 := by
  unfold modules_repo_init
  dsimp only

/-- `ModulesRepo.__init__` ORs its `no_pull` argument into the global flag
and changes it in no other way. -/
theorem modules_repo_init_noPull (ps : ProcState) (env : InitEnv) (args : InitArgs) :
    (modules_repo_init ps env args).1.noPullGlobal =
      (ps.noPullGlobal || args.noPull) := by
  rw [modules_repo_init_fst]
  exact setup_local_repo_fst_noPull _ _ _ _ _

/-- Claim C5: `local_repo_synced` is false before any sync in the process
and true after a successful clone or fetch; constructing a second handle for
the same remote performs no additional clone or fetch; and the global
suppress-sync flag is the OR of all `no_pull` arguments seen so far. -/
theorem c5_sync_registry :
    (∀ dirs name, local_repo_synced (initialProcState dirs) name = false) ∧
    (∀ ps env remoteUrl fullname branch,
      (fullname ∉ ps.dirExists → env.cloneOk = true) →
      local_repo_synced (setup_local_repo ps env remoteUrl fullname branch).1
        fullname = true) ∧
    (∀ ps env args env2 args2, args2.remoteUrl = args.remoteUrl →
      (repo_full_name_from_remote (args.remoteUrl.getD NF_CORE_MODULES_REMOTE) ∉
          ps.dirExists → env.cloneOk = true) →
      (modules_repo_init (modules_repo_init ps env args).1 env2 args2).1.fetchCount =
          (modules_repo_init ps env args).1.fetchCount ∧
      (modules_repo_init (modules_repo_init ps env args).1 env2 args2).1.cloneCount =
          (modules_repo_init ps env args).1.cloneCount) ∧
    (∀ ps env args, (modules_repo_init ps env args).1.noPullGlobal =
      (ps.noPullGlobal || args.noPull)) ∧
    (∀ ps (l : List (InitEnv × InitArgs)),
      (l.foldl (fun p ea => (modules_repo_init p ea.1 ea.2).1) ps).noPullGlobal =
        (ps.noPullGlobal || l.any (fun ea => ea.2.noPull))) := by
  refine ⟨?_, ?_, ?_, ?_, ?_⟩
  · intro dirs name
    rfl
  · intro ps env remoteUrl fullname branch hok
    exact setup_local_repo_synced_after ps env remoteUrl fullname branch hok
  · intro ps env args env2 args2 hsame hok
    have hfst1 := modules_repo_init_fst ps env args
    have hsyn : local_repo_synced (modules_repo_init ps env args).1
        (repo_full_name_from_remote (args.remoteUrl.getD NF_CORE_MODULES_REMOTE)) =
        true := by
      rw [hfst1]
      exact setup_local_repo_synced_after _ _ _ _ _ hok
    have hmem : repo_full_name_from_remote (args.remoteUrl.getD NF_CORE_MODULES_REMOTE) ∈
        (modules_repo_init ps env args).1.dirExists := by
      rw [hfst1]
      exact setup_local_repo_mem_after _ _ _ _ _ hok
    have hfst2 := modules_repo_init_fst (modules_repo_init ps env args).1 env2 args2
    rw [hsame] at hfst2
    rw [hfst2]
    exact setup_local_repo_counts_noop _ _ _ _ _ hmem hsyn
  · intro ps env args
    exact modules_repo_init_noPull ps env args
  · intro ps l
    induction l generalizing ps with
    | nil => simp
    | cons ea rest ih =>
      rw [List.foldl_cons, ih, modules_repo_init_noPull]
      simp [Bool.or_assoc]

/-- Concrete witness for C5: nothing synced at process start; one clone marks
the canonical repo synced; a second construction performs no extra network
calls. -/
theorem c5_sync_registry_witness :
    local_repo_synced (initialProcState []) "nf-core/modules" = false ∧
    local_repo_synced (setup_local_repo (initialProcState []) exEnv
        NF_CORE_MODULES_REMOTE "nf-core/modules" (some "master")).1
      "nf-core/modules" = true ∧
    (modules_repo_init (modules_repo_init (initialProcState []) exEnv
        exArgsDefault).1 exEnv exArgsDefault).1.fetchCount =
      (modules_repo_init (initialProcState []) exEnv exArgsDefault).1.fetchCount ∧
    (modules_repo_init (modules_repo_init (initialProcState []) exEnv
        exArgsDefault).1 exEnv exArgsDefault).1.cloneCount =
      (modules_repo_init (initialProcState []) exEnv exArgsDefault).1.cloneCount :=
  ⟨c5_sync_registry.1 [] "nf-core/modules",
   c5_sync_registry.2.1 (initialProcState []) exEnv NF_CORE_MODULES_REMOTE
     "nf-core/modules" (some "master") (fun _ => rfl),
   (c5_sync_registry.2.2.1 (initialProcState []) exEnv exArgsDefault exEnv
     exArgsDefault rfl (fun _ => rfl)).1,
   (c5_sync_registry.2.2.1 (initialProcState []) exEnv exArgsDefault exEnv
     exArgsDefault rfl (fun _ => rfl)).2⟩

/-! ### C10 -/

/-- Membership in an updated dict comes from the old dict or is the new
binding. -/
theorem mem_dictInsert {α : Type} {d : List (String × α)} {k : String} {v : α}
    {e : String × α} (h : e ∈ dictInsert d k v) : e ∈ d ∨ e = (k, v) := by
  unfold dictInsert at h
  split at h
  · rcases List.mem_map.mp h with ⟨x, hx, hfx⟩
    by_cases hk : (x.1 == k) = true
    · right
      rw [← hfx, if_pos hk]
    · left
      rw [← hfx, if_neg hk]
      exact hx
  · rcases List.mem_append.mp h with h1 | h1
    · left
      exact h1
    · right
      simpa using h1

/-- Overwriting-in-place does not change the key list. -/
theorem keys_map_overwrite {α : Type} (k : String) (v : α)
    (d : List (String × α)) :
    (d.map (fun p => if p.1 == k then (k, v) else p)).map Prod.fst =
      d.map Prod.fst := by
  induction d with
  | nil => rfl
  | cons p rest ih =>
    simp only [List.map_cons]
    by_cases hk : (p.1 == k) = true
    · have hpk : p.1 = k := by simpa using hk
      rw [if_pos hk]
      simp only [List.map_cons, ih]
      simp [hpk]
    · rw [if_neg hk]
      simp only [List.map_cons, ih]

/-- A dict write preserves distinctness of the keys. -/
theorem nodup_keys_dictInsert {α : Type} (d : List (String × α)) (k : String)
    (v : α) (h : (d.map Prod.fst).Nodup) :
    ((dictInsert d k v).map Prod.fst).Nodup := by
  unfold dictInsert
  split
  · rw [keys_map_overwrite]
    exact h
  · next hany =>
    have hk : k ∉ d.map Prod.fst := by
      intro hmem
      rcases List.mem_map.mp hmem with ⟨p, hp, hfp⟩
      have hpk : (p.1 == k) = true := by simp [hfp]
      have : d.any (fun p => p.1 == k) = true := List.any_eq_true.mpr ⟨p, hp, hpk⟩
      simp [this] at hany
    rw [List.map_append]
    simp [List.nodup_append, h, hk]

/-- The dict built by `get_remote_branches` has distinct sha keys. -/
theorem remoteDict_keys_nodup :
    ∀ (lines : List (String × String)) (d : List (String × String)),
      (d.map Prod.fst).Nodup →
      ((lines.foldl
          (fun d p => if p.2 == "HEAD" then d else dictInsert d p.1 (pathStem p.2))
          d).map Prod.fst).Nodup := by
  intro lines
  induction lines with
  | nil => intro d h; exact h
  | cons p rest ih =>
    intro d h
    rw [List.foldl_cons]
    apply ih
    by_cases hh : (p.2 == "HEAD") = true
    · rw [if_pos hh]
      exact h
    · rw [if_neg hh]
      exact nodup_keys_dictInsert d p.1 (pathStem p.2) h

/-- `find?` over an append tries the left list first. -/
theorem find?_append_eq {α : Type} (pred : α → Bool) :
    ∀ (l1 l2 : List α),
      (l1 ++ l2).find? pred =
        (match l1.find? pred with
         | some a => some a
         | none => l2.find? pred) := by
  intro l1
  induction l1 with
  | nil => intro l2; rfl
  | cons a rest ih =>
    intro l2
    rw [List.cons_append]
    by_cases ha : pred a = true
    · rw [List.find?_cons_of_pos _ ha, List.find?_cons_of_pos _ ha]
    · rw [List.find?_cons_of_neg _ (by simp [ha]),
        List.find?_cons_of_neg _ (by simp [ha]), ih]

/-- The dict of `get_remote_branches` maps each sha to the stem of the LAST
non-`HEAD` ref listed with that sha (later listings overwrite earlier
ones). -/
theorem remoteDict_lookup (sha : String) :
    ∀ (lines : List (String × String)) (d : List (String × String)),
      lookupA (lines.foldl
          (fun d p => if p.2 == "HEAD" then d else dictInsert d p.1 (pathStem p.2))
          d) sha =
        (match lines.reverse.find? (fun p => p.1 == sha && !(p.2 == "HEAD")) with
         | some p => some (pathStem p.2)
         | none => lookupA d sha) := by
  intro lines
  induction lines with
  | nil => intro d; rfl
  | cons p rest ih =>
    intro d
    rw [List.foldl_cons, ih, List.reverse_cons, find?_append_eq]
    cases hf : rest.reverse.find? (fun p => p.1 == sha && !(p.2 == "HEAD")) with
    | some q => rfl
    | none =>
      by_cases hrel : (p.1 == sha && !(p.2 == "HEAD")) = true
      · rw [@List.find?_cons_of_pos _ (fun q => q.1 == sha && !(q.2 == "HEAD")) p []
          hrel]
        rcases Bool.and_eq_true_iff.mp hrel with ⟨h1, h2⟩
        have hhead : (p.2 == "HEAD") = false := by
          cases hb : (p.2 == "HEAD") with
          | true => rw [hb] at h2; cases h2
          | false => rfl
        rw [if_neg (by simp [hhead])]
        have hsha : p.1 = sha := by simpa using h1
        rw [hsha]
        exact lookupA_dictInsert_self d sha (pathStem p.2)
      · rw [@List.find?_cons_of_neg _ (fun q => q.1 == sha && !(q.2 == "HEAD")) p []
          (by simp [hrel])]
        simp only [List.find?_nil]
        by_cases hh : (p.2 == "HEAD") = true
        · rw [if_pos hh]
        · rw [if_neg hh]
          have h1 : (p.1 == sha) = false := by
            cases hb : (p.1 == sha) with
            | true =>
              have : (!(p.2 == "HEAD")) = true := by
                cases hc : (p.2 == "HEAD") with
                | true => exact absurd hc hh
                | false => rfl
              exact absurd (Bool.and_eq_true_iff.mpr ⟨hb, this⟩) hrel
            | false => rfl
          apply lookupA_dictInsert_ne
          cases hb : (sha == p.1) with
          | true =>
            have : sha = p.1 := by simpa using hb
            rw [this] at h1
            simp at h1
          | false => rfl

/-- Every entry of the dict of `get_remote_branches` comes from a non-`HEAD`
listed line, with the stem as the stored name. -/
theorem remoteDict_mem :
    ∀ (lines : List (String × String)) (d : List (String × String))
      (e : String × String),
      e ∈ lines.foldl
          (fun d p => if p.2 == "HEAD" then d else dictInsert d p.1 (pathStem p.2))
          d →
      e ∈ d ∨ ∃ p ∈ lines, (p.2 == "HEAD") = false ∧ e = (p.1, pathStem p.2) := by
  intro lines
  induction lines with
  | nil => intro d e h; exact Or.inl h
  | cons p rest ih =>
    intro d e h
    rw [List.foldl_cons] at h
    rcases ih _ e h with h0 | ⟨q, hq, hqh, hqe⟩
    · by_cases hh : (p.2 == "HEAD") = true
      · rw [if_pos hh] at h0
        exact Or.inl h0
      · rw [if_neg hh] at h0
        rcases mem_dictInsert h0 with h1 | h1
        · exact Or.inl h1
        · exact Or.inr ⟨p, List.mem_cons_self _ _,
            (Bool.not_eq_true _) ▸ hh, h1⟩
    · exact Or.inr ⟨q, List.mem_cons_of_mem _ hq, hqh, hqe⟩

/-- Claim C10, as stated, is false: branch names are not merely truncated to
the final path component — `Path(...).stem` also strips a dot-suffix, so the
ref `refs/heads/v1.0` is reported as `v1`, not `v1.0`.  (The one-name-per-sha
part does hold.) -/
theorem c10_counterexample :
    get_remote_branches [("s1", "refs/heads/v1.0")] = ["v1"] ∧
    "v1.0" ∉ get_remote_branches [("s1", "refs/heads/v1.0")] ∧
    pathStem "refs/heads/feature/x" = "x" :=
  ⟨rfl, by decide, rfl⟩

/-- Claim C10 (amended): the result is keyed by sha with distinct keys (one
name per sha), each sha maps to the stem of the last non-`HEAD` ref listed
with that sha (later listings overwrite earlier ones), and every returned
name is `Path(ref).stem` — the final path component with its dot-suffix
stripped — of some listed non-`HEAD` ref. -/
theorem c10_amended (lines : List (String × String)) :
    ((remoteBranchesDict lines).map Prod.fst).Nodup ∧
    (∀ sha, lookupA (remoteBranchesDict lines) sha =
      (match lines.reverse.find? (fun p => p.1 == sha && !(p.2 == "HEAD")) with
       | some p => some (pathStem p.2)
       | none => none)) ∧
    (∀ nm, nm ∈ get_remote_branches lines →
      ∃ p ∈ lines, (p.2 == "HEAD") = false ∧ nm = pathStem p.2) := by
  refine ⟨?_, ?_, ?_⟩
  · exact remoteDict_keys_nodup lines [] (by simp)
  · intro sha
    unfold remoteBranchesDict
    rw [remoteDict_lookup sha lines []]
    cases lines.reverse.find? (fun p => p.1 == sha && !(p.2 == "HEAD")) with
    | some q => rfl
    | none => rfl
  · intro nm hnm
    unfold get_remote_branches at hnm
    rcases List.mem_map.mp (List.mem_dedup.mp hnm) with ⟨e, he, hsnd⟩
    rcases remoteDict_mem lines [] e he with h0 | ⟨p, hp, hhead, hep⟩
    · cases h0
    · exact ⟨p, hp, hhead, by rw [← hsnd, hep]⟩

/-- Concrete witness for the amended C10. -/
theorem c10_amended_witness :
    ((remoteBranchesDict exLines).map Prod.fst).Nodup ∧
    lookupA (remoteBranchesDict exLines) "s1" =
      (match exLines.reverse.find? (fun p => p.1 == "s1" && !(p.2 == "HEAD")) with
       | some p => some (pathStem p.2)
       | none => none) ∧
    ∃ p ∈ exLines, (p.2 == "HEAD") = false ∧ "x" = pathStem p.2 :=
  ⟨(c10_amended exLines).1, (c10_amended exLines).2.1 "s1",
   (c10_amended exLines).2.2 "x" (by decide)⟩

end NfTools
